import Mathlib

/-!
Verification of `AsyncWaitProcessor`
(`source/logging/processors/async_wait_processor.cpp`).

The processor owns a bounded multi-producer wait queue and one background
thread running `ProcessBufferedRecords`.  Producers call `ProcessRecord`
(enqueue), `Flush` (enqueue a timestamp-1 sentinel), and the destructor
enqueues a timestamp-0 stop sentinel and joins the thread.  The drain loop
dequeues batches, forwards data records to the wrapped `Processor` chain,
interprets the sentinels, and applies an auto-flush policy based on the
difference between the batch's maximal data timestamp and a cached one.

The embedding below is a direct translation of the control flow of the
source file.  External collaborators whose code is not part of the
repository (the `CppCommon` wait queue and `Timespan`) are modelled from
the specification's description of their contracts.
-/

set_option maxHeartbeats 1000000

namespace CppLogging

/-- A logging record.  The source's `Record` carries many payload fields
(logger name, thread id, level, message, raw buffer); the asynchronous
wait processor inspects only `timestamp`, a `uint64_t` number of
nanoseconds.  The rest of the payload is abstracted as an opaque tag so
that distinct records can be told apart. -/
structure Record where
  timestamp : Nat
  payload : Nat
deriving DecidableEq, Repr

/-- Modelled from the spec: the bounded multi-producer wait queue that
`AsyncWaitProcessor` owns (`_queue`) is an external collaborator whose
code is not in the repository.  Per §4.1 it is a fixed-capacity FIFO
channel. -/
structure WaitQueue where
  capacity : Nat
  items : List Record
deriving DecidableEq, Repr

/-- Modelled from the spec: `Enqueue` never blocks, appends the record in
FIFO position and returns `true` when the queue is below capacity, and
rejects the record returning `false` when it is at capacity. -/
def WaitQueue.Enqueue (q : WaitQueue) (r : Record) : WaitQueue × Bool :=
  if q.items.length < q.capacity then ({ q with items := q.items ++ [r] }, true)
  else (q, false)

namespace AsyncWaitProcessor

/-- `AsyncWaitProcessor::EnqueueRecord`: "Try to enqueue the given logger
record", forwarding to `_queue.Enqueue(record)`. -/
def EnqueueRecord (q : WaitQueue) (r : Record) : WaitQueue × Bool :=
  q.Enqueue r

/-- `AsyncWaitProcessor::ProcessRecord`: "Enqueue the given logger
record", forwarding to `EnqueueRecord`. -/
def ProcessRecord (q : WaitQueue) (r : Record) : WaitQueue × Bool :=
  EnqueueRecord q r

/-- The thread-local flush operation record built in
`AsyncWaitProcessor::Flush`: `flush.timestamp = 1`. -/
def flushRecord : Record := { timestamp := 1, payload := 0 }

/-- `AsyncWaitProcessor::Flush`.  Its return type in the source is
`void`: it enqueues the flush operation record and discards the Boolean
result of `EnqueueRecord`, so only the queue state is returned here. -/
def Flush (q : WaitQueue) : WaitQueue :=
  (EnqueueRecord q flushRecord).1

/-- Modelled from the spec: §7 describes `Flush` as returning `false` to
the caller when the queue is full, i.e. as returning the Boolean result
of the enqueue alongside the queue, the way `ProcessRecord` does.  This
definition follows the spec's words and is compared with the source's
`Flush` above. -/
def Flush_spec (q : WaitQueue) : WaitQueue × Bool :=
  EnqueueRecord q flushRecord

/-- The thread-local stop operation record built in the destructor:
`stop.timestamp = 0`. -/
def stopRecord : Record := { timestamp := 0, payload := 0 }

/-- Result of `~AsyncWaitProcessor`: the queue after the stop record has
been enqueued, and the fact that control reaches `_thread.join()`. -/
structure DtorResult where
  queue : WaitQueue
  joined : Bool
deriving DecidableEq, Repr

/-- `AsyncWaitProcessor::~AsyncWaitProcessor`: enqueue the stop operation
record — the Boolean result of `EnqueueRecord` is discarded — and then
unconditionally join the processing thread. -/
def destructor (q : WaitQueue) : DtorResult :=
  { queue := (EnqueueRecord q stopRecord).1, joined := true }

/-- Reinterpretation of a `uint64_t` value as `int64_t` (two's
complement), as performed by the cast
`(int64_t)(record_timestamp - timestamp)`. -/
def toInt64 (n : Nat) : Int :=
  if n % 2 ^ 64 < 2 ^ 63 then ((n % 2 ^ 64 : Nat) : Int)
  else ((n % 2 ^ 64 : Nat) : Int) - 2 ^ 64

/-- `uint64_t` subtraction `record_timestamp - timestamp`: wraps modulo
`2^64`. -/
def u64sub (a b : Nat) : Nat :=
  (a + (2 ^ 64 - b % 2 ^ 64)) % 2 ^ 64

/-- Modelled from the spec: `CppCommon::Timespan` is an external
collaborator; it stores a signed 64-bit nanosecond duration and
`seconds()` converts it with C++ integer division (truncation toward
zero). -/
def timespanSeconds (d : Int) : Int := Int.tdiv d 1000000000

/-- The auto-flush test of the drain loop:
`CppCommon::Timespan((int64_t)(record_timestamp - timestamp)).seconds() > 1`. -/
def autoFlushCond (record_timestamp timestamp : Nat) : Bool :=
  decide (1 < timespanSeconds (toInt64 (u64sub record_timestamp timestamp)))

/-- Modelled from the spec: the auto-flush trigger as §4.3 words it —
"the time elapsed between the batch's maximum data timestamp and the
previous batch's cached maximum timestamp exceeds one second"
(one second being `10^9` nanosecond timestamp units). -/
def autoFlushCond_spec (record_timestamp timestamp : Nat) : Bool :=
  decide (timestamp + 1000000000 < record_timestamp)

/-- Observable calls made by the background thread: the two thread hooks,
the downstream chain's `Processor::ProcessRecord` and `Processor::Flush`,
the `fatality` escalation, and a failed `assert`. -/
inductive Event where
  | initHook
  | cleanupHook
  | proc (r : Record)
  | flushOut
  | fatal
  | assertFail
deriving DecidableEq, Repr

/-- How the `for (auto& record : records)` loop over one dequeued batch
ends: the whole batch was processed (`ran rt` carries the final value of
the local `record_timestamp`), a stop record caused `return`, or a
downstream call threw. -/
inductive BatchExit where
  | ran (record_timestamp : Nat)
  | stopped
  | threw
deriving DecidableEq, Repr

/-- The body of the `for (auto& record : records)` loop of
`ProcessBufferedRecords`, starting from a given `record_timestamp`
accumulator.  `pThrow r` (resp. `fThrow`) tells whether the downstream
`Processor::ProcessRecord(r)` (resp. `Processor::Flush()`) raises an
exception.  A record with timestamp 0 causes `return` (exit `stopped`);
a record with timestamp 1 triggers `Processor::Flush()` and `continue`;
any other record is forwarded to `Processor::ProcessRecord` and the
maximal data timestamp is tracked. -/
def processBatchFrom (pThrow : Record → Bool) (fThrow : Bool) :
    List Record → Nat → List Event × BatchExit
  | [], rt => ([], .ran rt)
  | r :: rest, rt =>
    if r.timestamp = 0 then
      ([], .stopped)
    else if r.timestamp = 1 then
      if fThrow then ([], .threw)
      else (Event.flushOut :: (processBatchFrom pThrow fThrow rest rt).1,
            (processBatchFrom pThrow fThrow rest rt).2)
    else if pThrow r then ([], .threw)
    else (Event.proc r :: (processBatchFrom pThrow fThrow rest (max rt r.timestamp)).1,
          (processBatchFrom pThrow fThrow rest (max rt r.timestamp)).2)

/-- How the `while (true)` drain loop ends: normal `return` (after a stop
record or after `Dequeue` reported that nothing further will arrive), or
by an exception escaping a downstream call. -/
inductive LoopExit where
  | normal
  | threw
deriving DecidableEq, Repr

/-- The `while (true)` drain loop of `ProcessBufferedRecords`.  `batches`
is the sequence of buffers delivered by successive successful `Dequeue`
calls (each blocks until at least one record is available); when
`batches` is exhausted, `Dequeue` returns `false` and the loop exits via
`return`.  The `timestamp` argument is the thread-local cached timestamp
(initially 0).  After a fully processed batch the auto-flush condition is
evaluated and the cached timestamp is set to the batch's
`record_timestamp` whether or not a flush occurred. -/
def drainLoop (pThrow : Record → Bool) (fThrow : Bool) :
    List (List Record) → Nat → List Event × LoopExit
  | [], _ => ([], .normal)
  | b :: bs, timestamp =>
    match (processBatchFrom pThrow fThrow b 0).2 with
    | .stopped => ((processBatchFrom pThrow fThrow b 0).1, .normal)
    | .threw => ((processBatchFrom pThrow fThrow b 0).1, .threw)
    | .ran rt =>
      if autoFlushCond rt timestamp then
        if fThrow then ((processBatchFrom pThrow fThrow b 0).1, .threw)
        else ((processBatchFrom pThrow fThrow b 0).1
                ++ Event.flushOut :: (drainLoop pThrow fThrow bs rt).1,
              (drainLoop pThrow fThrow bs rt).2)
      else ((processBatchFrom pThrow fThrow b 0).1 ++ (drainLoop pThrow fThrow bs rt).1,
            (drainLoop pThrow fThrow bs rt).2)

/-- How `ProcessBufferedRecords` itself ends: normal return, process
termination through `fatality`, or an `abort` raised by a failed
`assert` in a development build. -/
inductive RunOutcome where
  | normal
  | fatal
  | assertAborted
deriving DecidableEq, Repr

/-- `AsyncWaitProcessor::ProcessBufferedRecords`.  `ndebug` is true in a
release (`NDEBUG`) build, where `assert` is a no-op; `initNull` and
`cleanNull` tell whether the corresponding hook `std::function` is
empty.  Note that both exits of the drain loop in the source are
`return` statements which leave the function at once, and `fatality`
terminates the process; the cleanup-handler block placed after the
`try`/`catch` (its `assert` and the call of `on_thread_clenup`) is
therefore unreachable, which is why `cleanNull` is never consulted. -/
def processBufferedRecords (ndebug initNull cleanNull : Bool)
    (pThrow : Record → Bool) (fThrow : Bool)
    (batches : List (List Record)) : List Event × RunOutcome :=
  if !ndebug && initNull then ([Event.assertFail], .assertAborted)
  else
    match (drainLoop pThrow fThrow batches 0).2 with
    | .normal =>
      ((if initNull then [] else [Event.initHook]) ++ (drainLoop pThrow fThrow batches 0).1,
       .normal)
    | .threw =>
      ((if initNull then [] else [Event.initHook]) ++ (drainLoop pThrow fThrow batches 0).1
         ++ [Event.fatal],
       .fatal)

/-- A downstream chain that never throws. -/
def noThrow : Record → Bool := fun _ => false

/-- The data records of a list (timestamp at least 2), in order. -/
def dataRecords (rs : List Record) : List Record :=
  rs.filter fun r => decide (2 ≤ r.timestamp)

/-- The records forwarded to the downstream `Processor::ProcessRecord`,
in order. -/
def procsOf (es : List Event) : List Record :=
  es.filterMap fun e => match e with | .proc r => some r | _ => none

/-- Number of downstream `Processor::Flush` invocations in a trace. -/
def flushCount (es : List Event) : Nat :=
  es.countP fun e => decide (e = Event.flushOut)

/-- Number of flush sentinels (timestamp 1) in a record list. -/
def flushSentinelCount (rs : List Record) : Nat :=
  rs.countP fun r => decide (r.timestamp = 1)

/-- `true` on every record that is not a stop sentinel. -/
def notStop (r : Record) : Bool := !(r.timestamp == 0)

/-- Sample data records for concrete runs: the §8 auto-flush scenario
`t0, t0 + 0.5 s, t0 + 1.5 s` realised with `t0 = 2` nanoseconds. -/
def recT0 : Record := { timestamp := 2, payload := 0 }

/-- `t0 + 0.5 s`. -/
def recT05 : Record := { timestamp := 500000002, payload := 0 }

/-- `t0 + 1.5 s`. -/
def recT15 : Record := { timestamp := 1500000002, payload := 0 }

/-- A record whose timestamp lies in the upper half of the `uint64`
range. -/
def recBig : Record := { timestamp := 2 ^ 63 + 10, payload := 0 }

/-- A small data record (timestamp 2). -/
def recSmall : Record := { timestamp := 2, payload := 1 }

/-- A concrete queue at capacity (capacity 2 holding 2 records). -/
def fullQ : WaitQueue := { capacity := 2, items := [⟨100, 0⟩, ⟨101, 1⟩] }

/-- A downstream chain that throws exactly on records with timestamp 5. -/
def throwsAtFive : Record → Bool := fun r => r.timestamp == 5

/-- A concrete queue (capacity 4) holding a data record, a flush sentinel
and another data record. -/
def exQ : WaitQueue := { capacity := 4, items := [⟨100, 7⟩, ⟨1, 0⟩, ⟨102, 8⟩] }

/-- One concrete batching of `exQ`'s content followed by the stop record. -/
def exBatches : List (List Record) := [[⟨100, 7⟩], [⟨1, 0⟩, ⟨102, 8⟩, stopRecord]]

/-! ### Helper lemmas -/

theorem procsOf_append (es fs : List Event) :
    procsOf (es ++ fs) = procsOf es ++ procsOf fs := by
  simp [procsOf]

theorem flushCount_append (es fs : List Event) :
    flushCount (es ++ fs) = flushCount es + flushCount fs := by
  simp [flushCount, List.countP_append]

theorem flushSentinelCount_append (rs ss : List Record) :
    flushSentinelCount (rs ++ ss) = flushSentinelCount rs + flushSentinelCount ss := by
  simp [flushSentinelCount, List.countP_append]

theorem dataRecords_append (rs ss : List Record) :
    dataRecords (rs ++ ss) = dataRecords rs ++ dataRecords ss := by
  simp [dataRecords]

theorem takeWhile_append_all {α : Type} (p : α → Bool) (l1 l2 : List α)
    (h : ∀ a ∈ l1, p a = true) :
    (l1 ++ l2).takeWhile p = l1 ++ l2.takeWhile p := by
  induction l1 with
  | nil => simp
  | cons a t ih =>
    have ha : p a = true := h a (by simp)
    simp [List.takeWhile_cons, ha, ih fun x hx => h x (by simp [hx])]

theorem takeWhile_all {α : Type} (p : α → Bool) (l : List α)
    (h : ∀ a ∈ l, p a = true) : l.takeWhile p = l := by
  have := takeWhile_append_all p l [] h
  simpa using this

theorem takeWhile_append_stopped {α : Type} (p : α → Bool) (l1 l2 : List α)
    (h : ∃ a ∈ l1, p a = false) :
    (l1 ++ l2).takeWhile p = l1.takeWhile p := by
  induction l1 with
  | nil => simp at h
  | cons a t ih =>
    by_cases ha : p a = true
    · have ht : ∃ x ∈ t, p x = false := by
        obtain ⟨x, hx, hpx⟩ := h
        rcases List.mem_cons.mp hx with rfl | hmem
        · rw [ha] at hpx; cases hpx
        · exact ⟨x, hmem, hpx⟩
      simp [List.takeWhile_cons, ha, ih ht]
    · have ha' : p a = false := by revert ha; cases p a <;> simp
      simp [List.takeWhile_cons, ha']

theorem processBatchFrom_nil (pThrow : Record → Bool) (fThrow : Bool) (rt : Nat) :
    processBatchFrom pThrow fThrow [] rt = ([], .ran rt) := rfl

theorem processBatchFrom_stop_cons (pThrow : Record → Bool) (fThrow : Bool)
    (r : Record) (rest : List Record) (rt : Nat) (h0 : r.timestamp = 0) :
    processBatchFrom pThrow fThrow (r :: rest) rt = ([], .stopped) := by
  simp [processBatchFrom, h0]

theorem processBatchFrom_flush_cons (pThrow : Record → Bool)
    (r : Record) (rest : List Record) (rt : Nat) (h1 : r.timestamp = 1) :
    processBatchFrom pThrow false (r :: rest) rt
      = (Event.flushOut :: (processBatchFrom pThrow false rest rt).1,
         (processBatchFrom pThrow false rest rt).2) := by
  have h0 : ¬r.timestamp = 0 := by omega
  simp [processBatchFrom, h0, h1]

theorem processBatchFrom_data_cons (pThrow : Record → Bool) (fThrow : Bool)
    (r : Record) (rest : List Record) (rt : Nat) (h2 : 2 ≤ r.timestamp)
    (hp : pThrow r = false) :
    processBatchFrom pThrow fThrow (r :: rest) rt
      = (Event.proc r :: (processBatchFrom pThrow fThrow rest (max rt r.timestamp)).1,
         (processBatchFrom pThrow fThrow rest (max rt r.timestamp)).2) := by
  have h0 : ¬r.timestamp = 0 := by omega
  have h1 : ¬r.timestamp = 1 := by omega
  simp [processBatchFrom, h0, h1, hp]

theorem procsOf_cons_flush (es : List Event) :
    procsOf (Event.flushOut :: es) = procsOf es := by
  simp [procsOf]

theorem procsOf_cons_proc (r : Record) (es : List Event) :
    procsOf (Event.proc r :: es) = r :: procsOf es := by
  simp [procsOf]

theorem flushCount_cons_flush (es : List Event) :
    flushCount (Event.flushOut :: es) = flushCount es + 1 := by
  simp [flushCount, List.countP_cons]

theorem flushCount_cons_proc (r : Record) (es : List Event) :
    flushCount (Event.proc r :: es) = flushCount es := by
  simp [flushCount, List.countP_cons]

theorem batch_procs (b : List Record) (rt : Nat) :
    procsOf (processBatchFrom noThrow false b rt).1
      = dataRecords (b.takeWhile notStop) := by
  induction b generalizing rt with
  | nil => simp [processBatchFrom_nil, procsOf, dataRecords]
  | cons r rest ih =>
    by_cases h0 : r.timestamp = 0
    · simp [processBatchFrom_stop_cons _ _ _ _ _ h0, notStop, h0,
            List.takeWhile_cons, procsOf, dataRecords]
    · have hns : notStop r = true := by simp [notStop, h0]
      by_cases h1 : r.timestamp = 1
      · rw [processBatchFrom_flush_cons _ _ _ _ h1]
        simp only [procsOf_cons_flush, List.takeWhile_cons, hns, if_true]
        rw [ih]
        simp [dataRecords, List.filter_cons, h1]
      · have h2 : 2 ≤ r.timestamp := by omega
        rw [processBatchFrom_data_cons noThrow false _ _ _ h2 rfl]
        simp only [procsOf_cons_proc, List.takeWhile_cons, hns, if_true]
        rw [ih]
        simp [dataRecords, List.filter_cons, h2]

theorem batch_flushes (b : List Record) (rt : Nat) :
    flushCount (processBatchFrom noThrow false b rt).1
      = flushSentinelCount (b.takeWhile notStop) := by
  induction b generalizing rt with
  | nil => simp [processBatchFrom_nil, flushCount, flushSentinelCount]
  | cons r rest ih =>
    by_cases h0 : r.timestamp = 0
    · simp [processBatchFrom_stop_cons _ _ _ _ _ h0, notStop, h0,
            List.takeWhile_cons, flushCount, flushSentinelCount]
    · have hns : notStop r = true := by simp [notStop, h0]
      by_cases h1 : r.timestamp = 1
      · rw [processBatchFrom_flush_cons _ _ _ _ h1]
        simp only [flushCount_cons_flush, List.takeWhile_cons, hns, if_true]
        rw [ih]
        simp [flushSentinelCount, List.countP_cons, h1]
      · have h2 : 2 ≤ r.timestamp := by omega
        rw [processBatchFrom_data_cons noThrow false _ _ _ h2 rfl]
        simp only [flushCount_cons_proc, List.takeWhile_cons, hns, if_true]
        rw [ih]
        simp [flushSentinelCount, List.countP_cons, h1]

theorem batch_exit_no_stop (b : List Record) (rt : Nat)
    (h : ∀ r ∈ b, r.timestamp ≠ 0) :
    ∃ rt2, (processBatchFrom noThrow false b rt).2 = .ran rt2 := by
  induction b generalizing rt with
  | nil => exact ⟨rt, rfl⟩
  | cons r rest ih =>
    have h0 : r.timestamp ≠ 0 := h r (by simp)
    have hr : ∀ x ∈ rest, x.timestamp ≠ 0 := fun x hx => h x (by simp [hx])
    by_cases h1 : r.timestamp = 1
    · obtain ⟨rt2, hx2⟩ := ih rt hr
      exact ⟨rt2, by rw [processBatchFrom_flush_cons _ _ _ _ h1]; exact hx2⟩
    · have h2 : 2 ≤ r.timestamp := by omega
      obtain ⟨rt2, hx2⟩ := ih (max rt r.timestamp) hr
      exact ⟨rt2, by rw [processBatchFrom_data_cons noThrow false _ _ _ h2 rfl]; exact hx2⟩

theorem batch_exit_stop (b : List Record) (rt : Nat)
    (h : ∃ r ∈ b, r.timestamp = 0) :
    (processBatchFrom noThrow false b rt).2 = .stopped := by
  induction b generalizing rt with
  | nil => simp at h
  | cons r rest ih =>
    by_cases h0 : r.timestamp = 0
    · rw [processBatchFrom_stop_cons _ _ _ _ _ h0]
    · have ht : ∃ x ∈ rest, x.timestamp = 0 := by
        obtain ⟨x, hx, he⟩ := h
        rcases List.mem_cons.mp hx with rfl | hmem
        · exact absurd he h0
        · exact ⟨x, hmem, he⟩
      by_cases h1 : r.timestamp = 1
      · rw [processBatchFrom_flush_cons _ _ _ _ h1]; exact ih rt ht
      · have h2 : 2 ≤ r.timestamp := by omega
        rw [processBatchFrom_data_cons noThrow false _ _ _ h2 rfl]
        exact ih (max rt r.timestamp) ht

theorem drainLoop_nil (pThrow : Record → Bool) (fThrow : Bool) (ts : Nat) :
    drainLoop pThrow fThrow [] ts = ([], .normal) := rfl

theorem drainLoop_cons_stopped (pThrow : Record → Bool) (fThrow : Bool)
    (b : List Record) (bs : List (List Record)) (ts : Nat)
    (h : (processBatchFrom pThrow fThrow b 0).2 = .stopped) :
    drainLoop pThrow fThrow (b :: bs) ts
      = ((processBatchFrom pThrow fThrow b 0).1, .normal) := by
  simp [drainLoop, h]

theorem drainLoop_cons_threw (pThrow : Record → Bool) (fThrow : Bool)
    (b : List Record) (bs : List (List Record)) (ts : Nat)
    (h : (processBatchFrom pThrow fThrow b 0).2 = .threw) :
    drainLoop pThrow fThrow (b :: bs) ts
      = ((processBatchFrom pThrow fThrow b 0).1, .threw) := by
  simp [drainLoop, h]

theorem drainLoop_cons_ran (pThrow : Record → Bool)
    (b : List Record) (bs : List (List Record)) (ts rt : Nat)
    (h : (processBatchFrom pThrow false b 0).2 = .ran rt) :
    drainLoop pThrow false (b :: bs) ts
      = ((processBatchFrom pThrow false b 0).1
           ++ ((if autoFlushCond rt ts then [Event.flushOut] else [])
                ++ (drainLoop pThrow false bs rt).1),
         (drainLoop pThrow false bs rt).2) := by
  by_cases hA : autoFlushCond rt ts = true
  · simp [drainLoop, h, hA]
  · simp [drainLoop, h, hA]

theorem batch_events_shape (pThrow : Record → Bool) (fThrow : Bool)
    (b : List Record) (rt : Nat) :
    ∀ e ∈ (processBatchFrom pThrow fThrow b rt).1,
      (∃ r, e = Event.proc r) ∨ e = Event.flushOut := by
  induction b generalizing rt with
  | nil => intro e he; simp [processBatchFrom_nil] at he
  | cons r rest ih =>
    intro e he
    by_cases h0 : r.timestamp = 0
    · rw [processBatchFrom_stop_cons _ _ _ _ _ h0] at he
      simp at he
    · by_cases h1 : r.timestamp = 1
      · by_cases hf : fThrow = true
        · subst hf
          simp [processBatchFrom, h0, h1] at he
        · have hff : fThrow = false := by simpa using hf
          subst hff
          simp [processBatchFrom, h0, h1] at he
          rcases he with he | he
          · exact Or.inr he
          · exact ih rt e he
      · by_cases hp : pThrow r = true
        · simp [processBatchFrom, h0, h1, hp] at he
        · simp [processBatchFrom, h0, h1, hp] at he
          rcases he with he | he
          · exact Or.inl ⟨r, he⟩
          · exact ih (max rt r.timestamp) e he

theorem drain_events_shape (pThrow : Record → Bool) (fThrow : Bool)
    (bs : List (List Record)) (ts : Nat) :
    ∀ e ∈ (drainLoop pThrow fThrow bs ts).1,
      (∃ r, e = Event.proc r) ∨ e = Event.flushOut := by
  induction bs generalizing ts with
  | nil => intro e he; simp [drainLoop_nil] at he
  | cons b rest ih =>
    intro e he
    rcases hexit : (processBatchFrom pThrow fThrow b 0).2 with rt | _ | _
    · simp only [drainLoop, hexit] at he
      by_cases hA : autoFlushCond rt ts = true
      · by_cases hf : fThrow = true
        · subst hf
          simp [hA] at he
          exact batch_events_shape pThrow true b 0 e he
        · have hff : fThrow = false := by simpa using hf
          subst hff
          simp [hA] at he
          rcases he with he | he | he
          · exact batch_events_shape pThrow false b 0 e he
          · exact Or.inr he
          · exact ih rt e he
      · simp [hA] at he
        rcases he with he | he
        · exact batch_events_shape pThrow fThrow b 0 e he
        · exact ih rt e he
    · rw [drainLoop_cons_stopped _ _ _ _ _ hexit] at he
      exact batch_events_shape pThrow fThrow b 0 e he
    · rw [drainLoop_cons_threw _ _ _ _ _ hexit] at he
      exact batch_events_shape pThrow fThrow b 0 e he

theorem drain_procs (bs : List (List Record)) (ts : Nat) :
    procsOf (drainLoop noThrow false bs ts).1
      = dataRecords ((bs.flatten).takeWhile notStop) := by
  induction bs generalizing ts with
  | nil => simp [drainLoop_nil, procsOf, dataRecords]
  | cons b rest ih =>
    by_cases hstop : ∃ r ∈ b, r.timestamp = 0
    · have hexit := batch_exit_stop b 0 hstop
      rw [drainLoop_cons_stopped _ _ _ _ _ hexit]
      obtain ⟨r, hr, h0⟩ := hstop
      have hjoin : ((b :: rest).flatten).takeWhile notStop = b.takeWhile notStop := by
        have := takeWhile_append_stopped notStop b rest.flatten ⟨r, hr, by simp [notStop, h0]⟩
        simpa using this
      rw [hjoin]
      exact batch_procs b 0
    · have hall : ∀ r ∈ b, r.timestamp ≠ 0 := fun r hr h0 => hstop ⟨r, hr, h0⟩
      obtain ⟨rt2, hexit⟩ := batch_exit_no_stop b 0 hall
      rw [drainLoop_cons_ran _ _ _ _ _ hexit]
      have hnsb : ∀ r ∈ b, notStop r = true := fun r hr => by simp [notStop, hall r hr]
      have hjoin : ((b :: rest).flatten).takeWhile notStop
          = b ++ (rest.flatten).takeWhile notStop := by
        simpa using takeWhile_append_all notStop b rest.flatten hnsb
      rw [hjoin, procsOf_append, procsOf_append, batch_procs, takeWhile_all _ _ hnsb,
          dataRecords_append, ih]
      by_cases hA : autoFlushCond rt2 ts = true <;> simp [hA, procsOf]

theorem drain_flushes (bs : List (List Record)) (ts : Nat) :
    flushSentinelCount ((bs.flatten).takeWhile notStop)
      ≤ flushCount (drainLoop noThrow false bs ts).1 := by
  induction bs generalizing ts with
  | nil => simp [drainLoop_nil, flushCount, flushSentinelCount]
  | cons b rest ih =>
    by_cases hstop : ∃ r ∈ b, r.timestamp = 0
    · have hexit := batch_exit_stop b 0 hstop
      rw [drainLoop_cons_stopped _ _ _ _ _ hexit]
      obtain ⟨r, hr, h0⟩ := hstop
      have hjoin : ((b :: rest).flatten).takeWhile notStop = b.takeWhile notStop := by
        have := takeWhile_append_stopped notStop b rest.flatten ⟨r, hr, by simp [notStop, h0]⟩
        simpa using this
      rw [hjoin]
      exact le_of_eq (batch_flushes b 0).symm
    · have hall : ∀ r ∈ b, r.timestamp ≠ 0 := fun r hr h0 => hstop ⟨r, hr, h0⟩
      obtain ⟨rt2, hexit⟩ := batch_exit_no_stop b 0 hall
      rw [drainLoop_cons_ran _ _ _ _ _ hexit]
      have hnsb : ∀ r ∈ b, notStop r = true := fun r hr => by simp [notStop, hall r hr]
      have hjoin : ((b :: rest).flatten).takeWhile notStop
          = b ++ (rest.flatten).takeWhile notStop := by
        simpa using takeWhile_append_all notStop b rest.flatten hnsb
      rw [hjoin, flushSentinelCount_append, flushCount_append, flushCount_append,
          batch_flushes, takeWhile_all _ _ hnsb]
      have hrec := ih rt2
      have hnn : 0 ≤ flushCount (if autoFlushCond rt2 ts then [Event.flushOut] else []) :=
        Nat.zero_le _
      omega

theorem autoFlushCond_iff (rt ts : Nat) (hts : ts < 2 ^ 64) :
    autoFlushCond rt ts = true ↔
      2000000000 ≤ (rt + (2 ^ 64 - ts)) % 2 ^ 64 ∧
        (rt + (2 ^ 64 - ts)) % 2 ^ 64 < 2 ^ 63 := by
  have hmod : ts % 2 ^ 64 = ts := Nat.mod_eq_of_lt hts
  unfold autoFlushCond timespanSeconds toInt64 u64sub
  rw [hmod]
  set d := (rt + (2 ^ 64 - ts)) % 2 ^ 64 with hd
  have hdlt : d < 2 ^ 64 := Nat.mod_lt _ (by norm_num)
  have hdm : d % 2 ^ 64 = d := Nat.mod_eq_of_lt hdlt
  rw [hdm]
  by_cases hc : d < 2 ^ 63
  · rw [if_pos hc]
    have hdiv : Int.tdiv (d : Int) 1000000000 = ((d / 1000000000 : Nat) : Int) :=
      (Int.ofNat_tdiv d 1000000000).symm
    rw [hdiv, decide_eq_true_eq]
    constructor
    · intro h
      have h2 : 1 < d / 1000000000 := by exact_mod_cast h
      have h3 : 2000000000 ≤ d := by omega
      exact ⟨h3, hc⟩
    · rintro ⟨h1, -⟩
      have h2 : 1 < d / 1000000000 := by omega
      exact_mod_cast h2
  · rw [if_neg hc]
    have hdle : d ≤ 2 ^ 64 := le_of_lt hdlt
    have hm : ((d : Nat) : Int) - 2 ^ 64 = -(((2 ^ 64 - d : Nat) : Int)) := by
      rw [Nat.cast_sub hdle]
      push_cast
      ring
    rw [hm, decide_eq_true_eq]
    constructor
    · intro h
      exfalso
      rw [Int.neg_tdiv] at h
      have hnn : (0 : Int) ≤ Int.tdiv ((2 ^ 64 - d : Nat) : Int) 1000000000 :=
        Int.tdiv_nonneg (by positivity) (by norm_num)
      omega
    · rintro ⟨-, h2⟩
      exact absurd h2 hc

theorem autoFlushCond_false_of_back (rt ts : Nat) (h1 : rt < ts)
    (h2 : ts ≤ rt + 2 ^ 63) (h3 : ts < 2 ^ 64) :
    autoFlushCond rt ts = false := by
  rcases Bool.eq_false_or_eq_true (autoFlushCond rt ts) with h | h
  swap
  · exact h
  · exfalso
    obtain ⟨-, hb⟩ := (autoFlushCond_iff rt ts h3).mp h
    have hlt : rt + (2 ^ 64 - ts) < 2 ^ 64 := by omega
    rw [Nat.mod_eq_of_lt hlt] at hb
    omega

theorem batch_all_flush (b : List Record) (hb : ∀ r ∈ b, r.timestamp = 1) :
    processBatchFrom noThrow false b 0
      = (List.replicate b.length Event.flushOut, .ran 0) := by
  induction b with
  | nil => rfl
  | cons r t ih =>
    have h1 : r.timestamp = 1 := hb r (by simp)
    rw [processBatchFrom_flush_cons _ _ _ _ h1, ih fun x hx => hb x (by simp [hx])]
    simp [List.replicate_succ]

theorem processBatchFrom_stop_truncate (pThrow : Record → Bool) (fThrow : Bool)
    (s : Record) (hs : s.timestamp = 0) (ys : List Record) :
    ∀ (xs : List Record) (rt : Nat),
      processBatchFrom pThrow fThrow (xs ++ s :: ys) rt
        = processBatchFrom pThrow fThrow (xs ++ [s]) rt := by
  intro xs
  induction xs with
  | nil =>
    intro rt
    simp only [List.nil_append]
    rw [processBatchFrom_stop_cons _ _ _ _ _ hs, processBatchFrom_stop_cons _ _ _ _ _ hs]
  | cons x t ih =>
    intro rt
    simp only [List.cons_append]
    by_cases h0 : x.timestamp = 0
    · rw [processBatchFrom_stop_cons _ _ _ _ _ h0, processBatchFrom_stop_cons _ _ _ _ _ h0]
    · by_cases h1 : x.timestamp = 1
      · by_cases hf : fThrow = true
        · subst hf
          simp [processBatchFrom, h0, h1]
        · have hff : fThrow = false := by simpa using hf
          subst hff
          rw [processBatchFrom_flush_cons _ _ _ _ h1,
              processBatchFrom_flush_cons _ _ _ _ h1, ih rt]
      · by_cases hp : pThrow x = true
        · simp [processBatchFrom, h0, h1, hp]
        · have h2 : 2 ≤ x.timestamp := by omega
          have hp' : pThrow x = false := by simpa using hp
          rw [processBatchFrom_data_cons _ _ _ _ _ h2 hp',
              processBatchFrom_data_cons _ _ _ _ _ h2 hp', ih (max rt x.timestamp)]

theorem processBatchFrom_stop_exit (pThrow : Record → Bool) (fThrow : Bool)
    (s : Record) (hs : s.timestamp = 0) :
    ∀ (xs : List Record) (rt : Nat),
      (processBatchFrom pThrow fThrow (xs ++ [s]) rt).2 = .stopped ∨
      (processBatchFrom pThrow fThrow (xs ++ [s]) rt).2 = .threw := by
  intro xs
  induction xs with
  | nil =>
    intro rt
    left
    simp only [List.nil_append]
    rw [processBatchFrom_stop_cons _ _ _ _ _ hs]
  | cons x t ih =>
    intro rt
    by_cases h0 : x.timestamp = 0
    · left
      rw [List.cons_append, processBatchFrom_stop_cons _ _ _ _ _ h0]
    · by_cases h1 : x.timestamp = 1
      · by_cases hf : fThrow = true
        · right
          subst hf
          simp [processBatchFrom, h0, h1]
        · have hff : fThrow = false := by simpa using hf
          subst hff
          rw [List.cons_append, processBatchFrom_flush_cons _ _ _ _ h1]
          exact ih rt
      · by_cases hp : pThrow x = true
        · right
          simp [processBatchFrom, h0, h1, hp]
        · have h2 : 2 ≤ x.timestamp := by omega
          have hp' : pThrow x = false := by simpa using hp
          rw [List.cons_append, processBatchFrom_data_cons _ _ _ _ _ h2 hp']
          exact ih (max rt x.timestamp)

theorem not_in_drain (pThrow : Record → Bool) (fThrow : Bool)
    (bs : List (List Record)) (ts : Nat) (e : Event)
    (h1 : ∀ r, e ≠ Event.proc r) (h2 : e ≠ Event.flushOut) :
    e ∉ (drainLoop pThrow fThrow bs ts).1 := by
  intro hmem
  rcases drain_events_shape pThrow fThrow bs ts e hmem with ⟨r, h⟩ | h
  · exact h1 r h
  · exact h2 h

theorem run_eq_of_assert_pass (ndebug initNull cleanNull : Bool)
    (pThrow : Record → Bool) (fThrow : Bool) (batches : List (List Record))
    (hcond : (!ndebug && initNull) = false) :
    processBufferedRecords ndebug initNull cleanNull pThrow fThrow batches
      = ((if initNull then [] else [Event.initHook])
           ++ (drainLoop pThrow fThrow batches 0).1
           ++ (if (drainLoop pThrow fThrow batches 0).2 = .threw
               then [Event.fatal] else []),
         if (drainLoop pThrow fThrow batches 0).2 = .threw
         then .fatal else .normal) := by
  unfold processBufferedRecords
  rw [if_neg (by simp [hcond])]
  rcases hexit : (drainLoop pThrow fThrow batches 0).2 with _ | _
  · simp [hexit]
  · simp [hexit]

theorem not_in_run_of_pass (ndebug initNull cleanNull : Bool)
    (pThrow : Record → Bool) (fThrow : Bool) (batches : List (List Record))
    (e : Event) (hcond : (!ndebug && initNull) = false)
    (h1 : ∀ r, e ≠ Event.proc r) (h2 : e ≠ Event.flushOut)
    (h3 : e ≠ Event.initHook) (h4 : e ≠ Event.fatal) :
    e ∉ (processBufferedRecords ndebug initNull cleanNull pThrow fThrow batches).1 := by
  rw [run_eq_of_assert_pass _ _ _ _ _ _ hcond]
  intro hmem
  simp only [List.mem_append] at hmem
  rcases hmem with (hmem | hmem) | hmem
  · by_cases hi : initNull = true
    · simp [hi] at hmem
    · have hif : initNull = false := by simpa using hi
      simp [hif] at hmem
      exact h3 hmem
  · exact not_in_drain _ _ _ _ _ h1 h2 hmem
  · by_cases ht : (drainLoop pThrow fThrow batches 0).2 = .threw
    · simp [ht] at hmem
      exact h4 hmem
    · simp [ht] at hmem

theorem cleanup_not_in_run (ndebug initNull cleanNull : Bool)
    (pThrow : Record → Bool) (fThrow : Bool) (batches : List (List Record)) :
    Event.cleanupHook ∉
      (processBufferedRecords ndebug initNull cleanNull pThrow fThrow batches).1 := by
  by_cases hcond : (!ndebug && initNull) = true
  · unfold processBufferedRecords
    rw [if_pos hcond]
    simp
  · have hc : (!ndebug && initNull) = false := by simpa using hcond
    exact not_in_run_of_pass _ _ _ _ _ _ _ hc (fun r h => Event.noConfusion h)
      (fun h => Event.noConfusion h) (fun h => Event.noConfusion h)
      (fun h => Event.noConfusion h)

/-! ### Claim theorems -/

/-- C1: for every sequence of records enqueued before destruction begins
(the queue content, none of them stop records, with room left for one
more), the destructor enqueues a Stop sentinel with timestamp 0 and joins
the thread, and for every batching of the resulting queue content the
drain loop forwards every data record enqueued strictly before the Stop
record to the downstream chain's `ProcessRecord` (exactly the data
records, in order) and issues at least one downstream `Flush` per flush
sentinel, before the loop — and hence the destructor's join — returns. -/
theorem C1_drain_before_exit (q : WaitQueue)
    (hcap : q.items.length < q.capacity)
    (hnz : ∀ r ∈ q.items, r.timestamp ≠ 0) :
    stopRecord.timestamp = 0 ∧
    (destructor q).joined = true ∧
    (destructor q).queue.items = q.items ++ [stopRecord] ∧
    ∀ batches : List (List Record),
      batches.flatten = q.items ++ [stopRecord] →
      procsOf (drainLoop noThrow false batches 0).1 = dataRecords q.items ∧
      flushSentinelCount q.items ≤ flushCount (drainLoop noThrow false batches 0).1 := by
  refine ⟨rfl, rfl, ?_, ?_⟩
  · simp [destructor, EnqueueRecord, WaitQueue.Enqueue, hcap]
  · intro batches hb
    have htw : (batches.flatten).takeWhile notStop = q.items := by
      rw [hb]
      have h1 : ∀ r ∈ q.items, notStop r = true := fun r hr => by simp [notStop, hnz r hr]
      rw [takeWhile_append_all notStop _ _ h1]
      simp [List.takeWhile_cons, notStop, stopRecord]
    constructor
    · rw [drain_procs, htw]
    · have h2 := drain_flushes batches 0
      rw [htw] at h2
      exact h2

/-- Witness for C1 at the concrete queue `exQ` and batching `exBatches`. -/
theorem C1_drain_before_exit_witness :
    stopRecord.timestamp = 0 ∧
    (destructor exQ).joined = true ∧
    (destructor exQ).queue.items = exQ.items ++ [stopRecord] ∧
    (procsOf (drainLoop noThrow false exBatches 0).1 = dataRecords exQ.items ∧
     flushSentinelCount exQ.items ≤ flushCount (drainLoop noThrow false exBatches 0).1) := by
  have h := C1_drain_before_exit exQ (by decide) (by decide)
  exact ⟨h.1, h.2.1, h.2.2.1, h.2.2.2 exBatches (by decide)⟩

/-- C2: the claim says the cleanup hook fires exactly once after a normal
loop exit.  In the source both loop exits are `return` statements that
leave `ProcessBufferedRecords` immediately, so the cleanup-handler block
after the `try`/`catch` is unreachable: a run that stops normally (here:
one batch holding the stop record, valid hooks, development build)
produces only the initialize-hook call, and no run whatsoever invokes the
cleanup hook. -/
theorem C2_cleanup_hook_never_invoked :
    processBufferedRecords false false false noThrow false [[stopRecord]]
      = ([Event.initHook], RunOutcome.normal) ∧
    ∀ (ndebug initNull cleanNull : Bool) (pThrow : Record → Bool) (fThrow : Bool)
      (batches : List (List Record)),
      Event.cleanupHook ∉
        (processBufferedRecords ndebug initNull cleanNull pThrow fThrow batches).1 :=
  ⟨by decide, fun nd iN cN pT fT bs => cleanup_not_in_run nd iN cN pT fT bs⟩

/-- C3: a Stop sentinel is terminal — the drain loop behaves identically
whether or not further records follow it in the same batch (`ys`) or in
later batches (`B2`): nothing after the Stop sentinel is forwarded
downstream. -/
theorem C3_stop_terminality (pThrow : Record → Bool) (fThrow : Bool)
    (B1 : List (List Record)) (xs ys : List Record) (B2 : List (List Record))
    (s : Record) (hs : s.timestamp = 0) (ts : Nat) :
    drainLoop pThrow fThrow (B1 ++ (xs ++ s :: ys) :: B2) ts
      = drainLoop pThrow fThrow (B1 ++ [xs ++ [s]]) ts := by
  induction B1 generalizing ts with
  | nil =>
    simp only [List.nil_append]
    have ha := processBatchFrom_stop_truncate pThrow fThrow s hs ys xs
    rcases processBatchFrom_stop_exit pThrow fThrow s hs xs 0 with hst | hth
    · have hL : (processBatchFrom pThrow fThrow (xs ++ s :: ys) 0).2 = .stopped := by
        rw [ha 0]; exact hst
      rw [drainLoop_cons_stopped _ _ _ _ _ hL, drainLoop_cons_stopped _ _ _ _ _ hst,
          ha 0]
    · have hL : (processBatchFrom pThrow fThrow (xs ++ s :: ys) 0).2 = .threw := by
        rw [ha 0]; exact hth
      rw [drainLoop_cons_threw _ _ _ _ _ hL, drainLoop_cons_threw _ _ _ _ _ hth, ha 0]
  | cons b B1t ih =>
    simp only [List.cons_append]
    rcases hexit : (processBatchFrom pThrow fThrow b 0).2 with rt | _ | _
    · simp only [drainLoop, hexit]
      by_cases hA : autoFlushCond rt ts = true
      · rw [if_pos hA, if_pos hA]
        by_cases hf : fThrow = true
        · subst hf
          simp
        · have hff : fThrow = false := by simpa using hf
          subst hff
          simp only [Bool.false_eq_true, if_false]
          rw [ih]
      · rw [if_neg hA, if_neg hA, ih]
    · rw [drainLoop_cons_stopped _ _ _ _ _ hexit, drainLoop_cons_stopped _ _ _ _ _ hexit]
    · rw [drainLoop_cons_threw _ _ _ _ _ hexit, drainLoop_cons_threw _ _ _ _ _ hexit]

/-- Witness for C3 at a concrete run. -/
theorem C3_stop_terminality_witness :
    drainLoop noThrow false ([] ++ ([recT0] ++ stopRecord :: [recT05]) :: [[recT15]]) 0
      = drainLoop noThrow false ([] ++ [[recT0] ++ [stopRecord]]) 0 :=
  C3_stop_terminality noThrow false [] [recT0] [recT05] [[recT15]] stopRecord rfl 0

/-- C4 counterexample: with the cached timestamp at `t0 = 2` ns and the
next batch's maximum at `t0 + 1.5 s`, the elapsed time exceeds one second
(the spec-worded trigger fires), yet the code performs no downstream
flush: `Timespan(1.5e9).seconds() = 1` is not `> 1`.  The trace of the
two-batch run contains no `flushOut` event at all. -/
theorem C4_counterexample :
    autoFlushCond_spec recT15.timestamp recT0.timestamp = true ∧
    autoFlushCond recT15.timestamp recT0.timestamp = false ∧
    (drainLoop noThrow false [[recT0], [recT15]] 0).1
      = [Event.proc recT0, Event.proc recT15] := by
  refine ⟨by decide, by decide, by decide⟩

/-- C4 amended: after each fully processed batch the downstream flush is
invoked iff the unsigned 64-bit difference between the batch maximum and
the cached timestamp, reinterpreted as a signed value, is at least
2·10⁹ ns (i.e. truncated division by 10⁹ exceeds 1) — not "exceeds one
second"; the cached timestamp is updated to the batch maximum whether or
not a flush occurred (the continuation always runs from `rt`); and in the
`t0, t0+0.5 s, t0+1.5 s` scenario (with `t0 = 2`, one record per batch)
no auto-flush fires at all. -/
theorem C4_auto_flush_amended :
    (∀ rt ts : Nat, ts < 2 ^ 64 →
      (autoFlushCond rt ts = true ↔
        2000000000 ≤ (rt + (2 ^ 64 - ts)) % 2 ^ 64 ∧
          (rt + (2 ^ 64 - ts)) % 2 ^ 64 < 2 ^ 63)) ∧
    (∀ (b : List Record) (bs : List (List Record)) (ts rt : Nat),
      (processBatchFrom noThrow false b 0).2 = .ran rt →
      drainLoop noThrow false (b :: bs) ts
        = ((processBatchFrom noThrow false b 0).1
             ++ ((if autoFlushCond rt ts then [Event.flushOut] else [])
                  ++ (drainLoop noThrow false bs rt).1),
           (drainLoop noThrow false bs rt).2)) ∧
    (drainLoop noThrow false [[recT0], [recT05], [recT15]] 0).1
      = [Event.proc recT0, Event.proc recT05, Event.proc recT15] :=
  ⟨fun rt ts hts => autoFlushCond_iff rt ts hts,
   fun b bs ts rt h => drainLoop_cons_ran noThrow b bs ts rt h,
   by decide⟩

/-- Witness for C4's amended statement at concrete inputs. -/
theorem C4_auto_flush_amended_witness :
    (autoFlushCond 4000000002 2 = true ↔
      2000000000 ≤ (4000000002 + (2 ^ 64 - 2)) % 2 ^ 64 ∧
        (4000000002 + (2 ^ 64 - 2)) % 2 ^ 64 < 2 ^ 63) ∧
    drainLoop noThrow false ([recT0] :: [[recT15]]) 0
      = ((processBatchFrom noThrow false [recT0] 0).1
           ++ ((if autoFlushCond 2 0 then [Event.flushOut] else [])
                ++ (drainLoop noThrow false [[recT15]] 2).1),
         (drainLoop noThrow false [[recT15]] 2).2) :=
  ⟨C4_auto_flush_amended.1 4000000002 2 (by norm_num),
   C4_auto_flush_amended.2.1 [recT0] [[recT15]] 0 2 (by decide)⟩

/-- C5 counterexample: at a full queue the spec-worded `Flush` (which
would return the enqueue's Boolean) yields `false`, but the source's
`Flush` returns `void`: it only leaves the queue unchanged (the sentinel
is silently dropped), handing no failure result to the caller, while
`ProcessRecord` does return `false`. -/
theorem C5_counterexample :
    (Flush_spec fullQ).2 = false ∧
    Flush fullQ = fullQ ∧
    ProcessRecord fullQ recSmall = (fullQ, false) := by
  refine ⟨by decide, by decide, by decide⟩

/-- C5 amended: `ProcessRecord` forwards the record to the queue's
`Enqueue` and returns its result; on a full queue it returns `false` with
the record dropped (the queue unchanged), and `Flush` likewise drops its
sentinel — but `Flush` returns no value at all, so only `ProcessRecord`
reports the rejection. -/
theorem C5_enqueue_amended (q : WaitQueue) (r : Record) :
    ProcessRecord q r = q.Enqueue r ∧
    (q.capacity ≤ q.items.length →
      (ProcessRecord q r).2 = false ∧ (ProcessRecord q r).1 = q ∧ Flush q = q) := by
  refine ⟨rfl, fun hfull => ?_⟩
  have hn : ¬q.items.length < q.capacity := by omega
  refine ⟨?_, ?_, ?_⟩ <;>
    simp [ProcessRecord, EnqueueRecord, Flush, WaitQueue.Enqueue, hn]

/-- Witness for C5's amended statement at the full queue `fullQ`. -/
theorem C5_enqueue_amended_witness :
    ProcessRecord fullQ recSmall = fullQ.Enqueue recSmall ∧
    ((ProcessRecord fullQ recSmall).2 = false ∧ (ProcessRecord fullQ recSmall).1 = fullQ ∧
      Flush fullQ = fullQ) := by
  have h := C5_enqueue_amended fullQ recSmall
  exact ⟨h.1, h.2 (by decide)⟩

/-- C6: `Flush` builds the flush sentinel with timestamp 1 and enqueues
it through the same path as ordinary records (`ProcessRecord`'s path,
`EnqueueRecord`), and whenever the drain loop meets a timestamp-1 record
it invokes the downstream chain's flush and continues with the remaining
records of the batch — the loop is not terminated. -/
theorem C6_flush_sentinel (q : WaitQueue) (pThrow : Record → Bool)
    (r : Record) (hr : r.timestamp = 1) (rest : List Record) (rt : Nat) :
    flushRecord.timestamp = 1 ∧
    Flush q = (ProcessRecord q flushRecord).1 ∧
    processBatchFrom pThrow false (r :: rest) rt
      = (Event.flushOut :: (processBatchFrom pThrow false rest rt).1,
         (processBatchFrom pThrow false rest rt).2) :=
  ⟨rfl, rfl, processBatchFrom_flush_cons pThrow r rest rt hr⟩

/-- Witness for C6 at concrete inputs. -/
theorem C6_flush_sentinel_witness :
    flushRecord.timestamp = 1 ∧
    Flush fullQ = (ProcessRecord fullQ flushRecord).1 ∧
    processBatchFrom noThrow false (flushRecord :: [recT0]) 0
      = (Event.flushOut :: (processBatchFrom noThrow false [recT0] 0).1,
         (processBatchFrom noThrow false [recT0] 0).2) :=
  C6_flush_sentinel fullQ noThrow flushRecord rfl [recT0] 0

/-- C7: when an exception escapes the processing of a batch (the drain
loop exits with `threw`), the run ends with the `fatality` escalation as
its final event — nothing is retried after it — the outcome is `fatal`,
and the thread-cleanup hook is not invoked. -/
theorem C7_fatal_escalation (ndebug initNull cleanNull : Bool)
    (pThrow : Record → Bool) (fThrow : Bool) (batches : List (List Record))
    (hassert : ndebug = true ∨ initNull = false)
    (hthrew : (drainLoop pThrow fThrow batches 0).2 = .threw) :
    processBufferedRecords ndebug initNull cleanNull pThrow fThrow batches
      = ((if initNull then [] else [Event.initHook])
           ++ (drainLoop pThrow fThrow batches 0).1 ++ [Event.fatal], .fatal) ∧
    Event.cleanupHook ∉
      (processBufferedRecords ndebug initNull cleanNull pThrow fThrow batches).1 := by
  have hcond : ¬((!ndebug && initNull) = true) := by
    rcases hassert with h | h <;> simp [h]
  constructor
  · unfold processBufferedRecords
    rw [if_neg hcond]
    simp [hthrew]
  · exact cleanup_not_in_run ndebug initNull cleanNull pThrow fThrow batches

/-- Witness for C7: a downstream chain that throws on the timestamp-5
record makes the run fatal. -/
theorem C7_fatal_escalation_witness :
    (processBufferedRecords true false false throwsAtFive false [[⟨5, 0⟩]]
      = ((if false then [] else [Event.initHook])
           ++ (drainLoop throwsAtFive false [[⟨5, 0⟩]] 0).1 ++ [Event.fatal], .fatal)) ∧
    Event.cleanupHook ∉
      (processBufferedRecords true false false throwsAtFive false [[⟨5, 0⟩]]).1 :=
  C7_fatal_escalation true false false throwsAtFive false [[⟨5, 0⟩]]
    (Or.inl rfl) (by decide)

/-- C8 counterexample: in a development build (`NDEBUG` not set) with a
null cleanup hook and a valid initialize hook, the claim demands a
defensive assertion; the code instead completes the run normally with no
assertion failure, because the cleanup-side `assert` sits in the
unreachable block after the `try`/`catch`. -/
theorem C8_counterexample :
    processBufferedRecords false false true noThrow false [[stopRecord]]
      = ([Event.initHook], RunOutcome.normal) := by decide

/-- C8 amended: a null initialize hook raises the defensive assertion in
development builds and is silently skipped (no call, no abort) in release
builds; a null cleanup hook, by contrast, is never detected in any build:
no assertion fires for it and no cleanup call is ever made, since the
block containing its `assert` and its invocation is unreachable. -/
theorem C8_null_hooks_amended (cleanNull : Bool) (pThrow : Record → Bool)
    (fThrow : Bool) (batches : List (List Record)) :
    processBufferedRecords false true cleanNull pThrow fThrow batches
      = ([Event.assertFail], .assertAborted) ∧
    (processBufferedRecords true true cleanNull pThrow fThrow batches).2
      ≠ .assertAborted ∧
    Event.initHook ∉ (processBufferedRecords true true cleanNull pThrow fThrow batches).1 ∧
    ∀ ndebug : Bool,
      Event.assertFail ∉
        (processBufferedRecords ndebug false true pThrow fThrow batches).1 ∧
      Event.cleanupHook ∉
        (processBufferedRecords ndebug false true pThrow fThrow batches).1 := by
  refine ⟨rfl, ?_, ?_, ?_⟩
  · rw [run_eq_of_assert_pass true true cleanNull pThrow fThrow batches rfl]
    by_cases ht : (drainLoop pThrow fThrow batches 0).2 = .threw <;> simp [ht]
  · rw [run_eq_of_assert_pass true true cleanNull pThrow fThrow batches rfl]
    intro hmem
    simp only [if_true, List.nil_append, List.mem_append] at hmem
    rcases hmem with hmem | hmem
    · exact not_in_drain _ _ _ _ _ (fun r h => Event.noConfusion h)
        (fun h => Event.noConfusion h) hmem
    · by_cases ht : (drainLoop pThrow fThrow batches 0).2 = .threw <;>
        simp [ht] at hmem
  · intro ndebug
    constructor
    · exact not_in_run_of_pass ndebug false true pThrow fThrow batches
        Event.assertFail (by simp) (fun r h => Event.noConfusion h)
        (fun h => Event.noConfusion h) (fun h => Event.noConfusion h)
        (fun h => Event.noConfusion h)
    · exact cleanup_not_in_run ndebug false true pThrow fThrow batches

/-- C9: the destructor discards the Boolean result of enqueuing the Stop
sentinel: on a queue at capacity the enqueue fails, the stop record is
silently dropped (the queue is unchanged, no retry), and the destructor
still proceeds to join the background thread. -/
theorem C9_stop_enqueue_ignored (q : WaitQueue)
    (hfull : q.capacity ≤ q.items.length) :
    (destructor q).joined = true ∧
    (EnqueueRecord q stopRecord).2 = false ∧
    (destructor q).queue = q := by
  have hn : ¬q.items.length < q.capacity := by omega
  refine ⟨rfl, ?_, ?_⟩ <;> simp [destructor, EnqueueRecord, WaitQueue.Enqueue, hn]

/-- Witness for C9 at the full queue `fullQ`. -/
theorem C9_stop_enqueue_ignored_witness :
    (destructor fullQ).joined = true ∧
    (EnqueueRecord fullQ stopRecord).2 = false ∧
    (destructor fullQ).queue = fullQ :=
  C9_stop_enqueue_ignored fullQ (by decide)

/-- C10 counterexample: a batch maximum smaller than the cached timestamp
CAN trigger a flush.  After a batch whose maximum is `2^63 + 10` ns, a
following batch with maximum 2 ns makes the wrapped difference
`2^63 - 8`, which reinterpreted as `int64_t` is a huge positive number of
nanoseconds, so `seconds() > 1` holds and the downstream flush fires. -/
theorem C10_counterexample :
    recSmall.timestamp < recBig.timestamp ∧
    (drainLoop noThrow false [[recBig], [recSmall]] 0).1
      = [Event.proc recBig, Event.proc recSmall, Event.flushOut] := by
  refine ⟨by decide, by decide⟩

/-- C10 amended: a batch containing only flush sentinels leaves the
batch-local `record_timestamp` at 0, so the cached timestamp is
overwritten with 0 (the continuation runs from cache 0); the auto-flush
comparison is unsigned 64-bit subtraction reinterpreted as signed; and a
batch maximum smaller than the cached timestamp never triggers a flush
provided the cached timestamp exceeds it by at most `2^63` (beyond that
the wrapped difference becomes positive again and can fire the flush, as
the counterexample shows). -/
theorem C10_wraparound_amended :
    (∀ b : List Record, (∀ r ∈ b, r.timestamp = 1) →
      processBatchFrom noThrow false b 0
        = (List.replicate b.length Event.flushOut, .ran 0)) ∧
    (∀ (b : List Record) (bs : List (List Record)) (ts : Nat),
      (∀ r ∈ b, r.timestamp = 1) →
      drainLoop noThrow false (b :: bs) ts
        = (List.replicate b.length Event.flushOut
             ++ ((if autoFlushCond 0 ts then [Event.flushOut] else [])
                  ++ (drainLoop noThrow false bs 0).1),
           (drainLoop noThrow false bs 0).2)) ∧
    (∀ rt ts : Nat, rt < ts → ts ≤ rt + 2 ^ 63 → ts < 2 ^ 64 →
      autoFlushCond rt ts = false) := by
  refine ⟨fun b hb => batch_all_flush b hb, fun b bs ts hb => ?_,
          fun rt ts h1 h2 h3 => autoFlushCond_false_of_back rt ts h1 h2 h3⟩
  have h := batch_all_flush b hb
  rw [drainLoop_cons_ran noThrow b bs ts 0 (by rw [h]), h]

/-- Witness for C10's amended statement at concrete inputs. -/
theorem C10_wraparound_amended_witness :
    processBatchFrom noThrow false [flushRecord, flushRecord] 0
      = (List.replicate 2 Event.flushOut, .ran 0) ∧
    drainLoop noThrow false ([flushRecord] :: [[recT0]]) 5
      = (List.replicate 1 Event.flushOut
           ++ ((if autoFlushCond 0 5 then [Event.flushOut] else [])
                ++ (drainLoop noThrow false [[recT0]] 0).1),
         (drainLoop noThrow false [[recT0]] 0).2) ∧
    autoFlushCond 5 7 = false :=
  ⟨C10_wraparound_amended.1 [flushRecord, flushRecord] (by decide),
   C10_wraparound_amended.2.1 [flushRecord] [[recT0]] 5 (by decide),
   C10_wraparound_amended.2.2 5 7 (by norm_num) (by norm_num) (by norm_num)⟩

end AsyncWaitProcessor

end CppLogging
